import Mathlib

/-!
# Verification of the ThrusterTester core against its specification

Shallow embedding of the thruster-characterization core:

* `src/src/testing/deadband_analyzer.py` — `analyze_deadband`,
  `round_to_resolution` (pure functions, embedded directly);
* `src/src/testing/test_runner.py` — `TestRunner._take_measurement` and
  `TestRunner._run_test` (the sweep loop, embedded as a state-passing
  function over an environment of collaborator outcomes);
* `src/src/hardware/pwm_controller.py` — `PWMController` state
  (`_current_pwm_us`, `_is_armed`) and its operations.

Python `int` is modelled as `Int` (Python `//` is floor division, `Int.fdiv`).
Python `float` sensor values are modelled as `ℚ`: the claims under scrutiny
only add, divide and order these values, never exercise rounding of binary
floating point, so the ordered-field structure is the faithful abstraction.
-/

namespace ThrusterTester

/-- `TestPoint` from `src/src/data/models.py` (the `timestamp` field, a
wall-clock capture time irrelevant to every claim, is omitted). -/
structure TestPoint where
  pwm_us : Int
  current_a : ℚ
  voltage_v : ℚ
  power_w : ℚ
  thrust_kg : ℚ
deriving DecidableEq, Repr

/-- `DeadbandResult` from `src/src/data/models.py`. -/
structure DeadbandResult where
  min_off_pwm_us : Int
  max_off_pwm_us : Int
  midpoint_pwm_us : ℚ
  range_us : Int
deriving DecidableEq, Repr

/-- One step of a stable insertion sort on `pwm_us`: the new element is
placed after all existing elements with a `pwm_us` not exceeding it, which
matches the stability guarantee of Python's `sorted` with `key=lambda p:
p.pwm_us` for all properties used here. -/
def insertByPwm (p : TestPoint) : List TestPoint → List TestPoint
  | [] => [p]
  | q :: qs => if p.pwm_us < q.pwm_us then p :: q :: qs else q :: insertByPwm p qs

/-- `sorted(test_points, key=lambda p: p.pwm_us)` from
`deadband_analyzer.py` line 40: stable sort by ascending `pwm_us`. -/
def sortByPwm (l : List TestPoint) : List TestPoint :=
  l.foldl (fun acc p => insertByPwm p acc) []

/-- The downward scan of `analyze_deadband` (lines 47–53): iterate over the
given list (called on `(sortByPwm pts).reverse`, i.e. descending order),
skip points with `pwm_us > neutral` (`continue`), record the setpoint of a
point with `|thrust| < threshold` into the accumulator (initially
`neutral`), and stop at the first point at or above the threshold
(`break`). -/
def scanLower (neutral : Int) (thr : ℚ) : List TestPoint → Int → Int
  | [], acc => acc
  | p :: ps, acc =>
    if p.pwm_us > neutral then scanLower neutral thr ps acc
    else if |p.thrust_kg| < thr then scanLower neutral thr ps p.pwm_us
    else acc

/-- The upward scan of `analyze_deadband` (lines 56–62): same as
`scanLower` but over the ascending list, skipping points with
`pwm_us < neutral`. -/
def scanUpper (neutral : Int) (thr : ℚ) : List TestPoint → Int → Int
  | [], acc => acc
  | p :: ps, acc =>
    if p.pwm_us < neutral then scanUpper neutral thr ps acc
    else if |p.thrust_kg| < thr then scanUpper neutral thr ps p.pwm_us
    else acc

/-- `round_to_resolution` from `deadband_analyzer.py` lines 80–95.
Python `//` on `int` is floor division, i.e. `Int.fdiv`. -/
def round_to_resolution (value : Int) (resolution : Int) (round_down : Bool := true) : Int :=
  if round_down then
    (value.fdiv resolution) * resolution
  else
    ((value + resolution - 1).fdiv resolution) * resolution

/-- `analyze_deadband` from `deadband_analyzer.py` lines 12–77. -/
def analyze_deadband (test_points : List TestPoint)
    (neutral_pwm_us : Int := 1500)
    (thrust_threshold_kg : ℚ := mkRat 1 100)
    (step_resolution_us : Int := 5) : DeadbandResult :=
  if test_points.isEmpty then
    { min_off_pwm_us := neutral_pwm_us
      max_off_pwm_us := neutral_pwm_us
      midpoint_pwm_us := (neutral_pwm_us : ℚ)
      range_us := 0 }
  else
    let sorted_points := sortByPwm test_points
    let min_off0 := scanLower neutral_pwm_us thrust_threshold_kg sorted_points.reverse neutral_pwm_us
    let max_off0 := scanUpper neutral_pwm_us thrust_threshold_kg sorted_points neutral_pwm_us
    let min_off := round_to_resolution min_off0 step_resolution_us true
    let max_off := round_to_resolution max_off0 step_resolution_us false
    { min_off_pwm_us := min_off
      max_off_pwm_us := max_off
      midpoint_pwm_us := ((min_off : ℚ) + (max_off : ℚ)) / 2
      range_us := max_off - min_off }

/-- A helper for building concrete measurement points whose electrical
channels are irrelevant to the property at hand. -/
def mkThrustPoint (s : Int) (t : ℚ) : TestPoint :=
  { pwm_us := s, current_a := 0, voltage_v := 0, power_w := 0, thrust_kg := t }

/-- Declarative restatement of the downward scan, following the
specification's words: among the points with setpoint at most `neutral`,
scanned in the given (descending) order, take the longest prefix whose
thrust magnitude stays below the threshold and return the setpoint of its
last element, defaulting to `neutral` when the prefix is empty. -/
def lowerBoundSpec (neutral : Int) (thr : ℚ) (descPts : List TestPoint) : Int :=
  ((((descPts.filter (fun p => p.pwm_us ≤ neutral)).takeWhile
      (fun p => |p.thrust_kg| < thr)).map (fun p => p.pwm_us)).getLast?).getD neutral

/-- Declarative restatement of the upward scan, symmetric to
`lowerBoundSpec`: points with setpoint at least `neutral`, in the given
(ascending) order. -/
def upperBoundSpec (neutral : Int) (thr : ℚ) (ascPts : List TestPoint) : Int :=
  ((((ascPts.filter (fun p => neutral ≤ p.pwm_us)).takeWhile
      (fun p => |p.thrust_kg| < thr)).map (fun p => p.pwm_us)).getLast?).getD neutral

/-- The nine test points of concrete scenario C of the specification:
setpoints `1480 .. 1520` in steps of 5, thrust `0.0005` (`= 1/2000`)
everywhere except `0.002` (`= 1/500`) at setpoint `1495`. -/
def scenarioCPoints : List TestPoint :=
  [mkThrustPoint 1480 (mkRat 1 2000), mkThrustPoint 1485 (mkRat 1 2000), mkThrustPoint 1490 (mkRat 1 2000),
   mkThrustPoint 1495 (mkRat 1 500), mkThrustPoint 1500 (mkRat 1 2000), mkThrustPoint 1505 (mkRat 1 2000),
   mkThrustPoint 1510 (mkRat 1 2000), mkThrustPoint 1515 (mkRat 1 2000), mkThrustPoint 1520 (mkRat 1 2000)]

/-- `TestRunner._take_measurement` (`test_runner.py` lines 234–270).  The
sensors are modelled as read streams: `power_read k` is the value of the
`k`-th `power.read_all()` call — a `(voltage, current, power)` triple whose
third component the code discards — and `load_read k` the value of the
`k`-th `load_cell.read_kg(samples=1)` call.  The code appends each reading
to three lists, averages each list, and computes power as
mean-voltage × mean-current. -/
def take_measurement (pwm_us : Int) (samples_per_point : Nat)
    (power_read : Nat → ℚ × ℚ × ℚ) (load_read : Nat → ℚ) : TestPoint :=
  let lists :=
    (List.range samples_per_point).foldl
      (fun (acc : List ℚ × List ℚ × List ℚ) k =>
        (acc.1 ++ [(power_read k).1], acc.2.1 ++ [(power_read k).2.1],
         acc.2.2 ++ [load_read k]))
      ([], [], [])
  let avg_voltage := lists.1.sum / (lists.1.length : ℚ)
  let avg_current := lists.2.1.sum / (lists.2.1.length : ℚ)
  let avg_thrust := lists.2.2.sum / (lists.2.2.length : ℚ)
  let avg_power := avg_voltage * avg_current
  { pwm_us := pwm_us, current_a := avg_current, voltage_v := avg_voltage,
    power_w := avg_power, thrust_kg := avg_thrust }

/-- Power readings for the power-law demonstration: first sample
`(v, i) = (1, 1)`, second sample `(3, 3)`; mean-voltage × mean-current is
`4` while the mean of the per-sample products is `5`. -/
def demoPowerRead : Nat → ℚ × ℚ × ℚ := fun k => if k = 0 then (1, 1, 1) else (3, 3, 9)

/-- The observable state of `PWMController`
(`src/src/hardware/pwm_controller.py`): the tracked pulse width
`_current_pwm_us` and the `_is_armed` flag.  The duty-cycle conversion and
GPIO writes have no feedback into the program and are omitted. -/
structure PWMState where
  current_pwm_us : Int := 1500
  is_armed : Bool := false
deriving DecidableEq, Repr

/-- `PWMController.set_pwm_us` (lines 92–110): clamp to the safe
`[1000, 2000]` range and record the value. -/
def set_pwm_us (s : PWMState) (pulse_us : Int) : PWMState :=
  { s with current_pwm_us := max 1000 (min 2000 pulse_us) }

/-- `PWMController.arm` (lines 116–130): neutral signal, then armed. -/
def armPWM (s : PWMState) (neutral_pwm_us : Int := 1500) : PWMState :=
  { set_pwm_us s neutral_pwm_us with is_armed := true }

/-- `PWMController.disarm` (lines 132–142): neutral signal, disarmed. -/
def disarmPWM (s : PWMState) (neutral_pwm_us : Int := 1500) : PWMState :=
  { set_pwm_us s neutral_pwm_us with is_armed := false }

/-- `PWMController.emergency_stop` (lines 144–147): immediately sets the
hard-coded pulse width 1500 µs and clears the armed flag. -/
def emergency_stopPWM (s : PWMState) : PWMState :=
  { set_pwm_us s 1500 with is_armed := false }

/-- The ascending branch of `PWMController.ramp_to` (lines 164–168):
`current = min(current + step, target)` then `set_pwm_us(current)` while
`current < target`.  The loop is embedded with an explicit iteration bound
(`fuel`); every call supplies a bound that is sufficient whenever
`step > 0` (the only case in which the Python loop terminates at all). -/
def rampUpFuel : Nat → PWMState → Int → Int → Int → PWMState
  | 0, s, _, _, _ => s
  | fuel+1, s, cur, target, step =>
    if cur < target then
      let c := min (cur + step) target
      rampUpFuel fuel (set_pwm_us s c) c target step
    else s

/-- The descending branch of `PWMController.ramp_to` (lines 169–173). -/
def rampDownFuel : Nat → PWMState → Int → Int → Int → PWMState
  | 0, s, _, _, _ => s
  | fuel+1, s, cur, target, step =>
    if target < cur then
      let c := max (cur - step) target
      rampDownFuel fuel (set_pwm_us s c) c target step
    else s

/-- `PWMController.ramp_to` (lines 153–173); the `delay_ms` sleep has no
state effect and is omitted. -/
def ramp_to (s : PWMState) (target_us : Int) (step_us : Int := 25) : PWMState :=
  if s.current_pwm_us < target_us then
    rampUpFuel (target_us - s.current_pwm_us).toNat s s.current_pwm_us target_us step_us
  else
    rampDownFuel (s.current_pwm_us - target_us).toNat s s.current_pwm_us target_us step_us

/-- `ThrusterConfig` from `src/src/data/models.py`. -/
structure ThrusterConfig where
  thruster_type : String := ""
  thruster_id : String := ""
  min_pwm_us : Int
  max_pwm_us : Int
  neutral_pwm_us : Int := 1500
  pwm_frequency_hz : Int := 50
deriving DecidableEq, Repr

/-- `TestResult` from `src/src/data/models.py`; `datetime` timestamps are
modelled as abstract integers. -/
structure TestResult where
  config : ThrusterConfig
  test_points : List TestPoint
  deadband : Option DeadbandResult
  start_time : Int
  end_time : Option Int := none
  notes : String := ""
  test_id : Option Int := none
deriving DecidableEq, Repr

/-- `TestStatus` from `src/src/data/models.py`. -/
structure TestStatus where
  is_running : Bool := false
  is_paused : Bool := false
  current_pwm_us : Int := 1500
  progress_percent : ℚ := 0
  current_point : Option TestPoint := none
  error_message : Option String := none
deriving DecidableEq, Repr

/-- The four callback events of `TestRunner` (`on_point`, `on_progress`,
`on_complete`, `on_error`), recorded in invocation order; all four
callbacks are modelled as registered. -/
inductive Event where
  | point (p : TestPoint)
  | progress (pct : ℚ)
  | complete (r : TestResult)
  | error (msg : String)
deriving DecidableEq, Repr

def isErrorEvent : Event → Bool
  | .error _ => true
  | _ => false

def isCompleteEvent : Event → Bool
  | .complete _ => true
  | _ => false

def eventPoint : Event → Option TestPoint
  | .point p => some p
  | _ => none

/-- The averaged readings `_take_measurement` distils into a point. -/
structure Measurement where
  voltage_v : ℚ
  current_a : ℚ
  power_w : ℚ
  thrust_kg : ℚ
deriving DecidableEq, Repr

/-- The environment of one `_run_test` execution: the outcome of every
collaborator call and of every read of the cross-thread flags.  Each
hardware call either succeeds or raises (`Except String`);
`measure_outcome` abstracts `_take_measurement` at a given setpoint (its
`TestPoint` always carries the commanded setpoint, so only the averaged
readings are environmental).  `observe_stop k` is the combined outcome of
the `_stop_requested` checks (including the pause spin-wait, whose only
effect is to delay until stop or resume) at the top of sweep iteration
`k`; `final_stop` is the value of `_stop_requested` read at the
completion-callback guard.  Timestamps are abstract integers. -/
structure Env where
  arm_outcome : Except String Unit
  tare_outcome : Except String Unit
  ramp_start_outcome : Except String Unit
  measure_outcome : Int → Except String Measurement
  ramp_neutral_outcome : Except String Unit
  disarm_outcome : Except String Unit
  observe_stop : Nat → Bool
  final_stop : Bool
  start_time : Int
  end_time : Int

/-- The mutable state `_run_test` threads: the PWM controller state, the
collected `_test_points`, the callback events emitted so far, the shared
`_status`, and `_result`. -/
structure RunState where
  pwm : PWMState
  points : List TestPoint
  events : List Event
  status : TestStatus
  result : Option TestResult
deriving DecidableEq, Repr

/-- The state at entry of `_run_test` for a fresh `start()`:
`_test_points` and `_result` reset by `start`, `is_running` set and
`error_message` cleared by the loop prologue (lines 137–138). -/
def initRunState (pwm0 : PWMState) (status0 : TestStatus) : RunState :=
  { pwm := pwm0, points := [], events := [],
    status := { status0 with is_running := true, error_message := none },
    result := none }

/-- The `TestPoint` built by `_take_measurement` for iteration at `cur`. -/
def mkLoopPoint (cur : Int) (m : Measurement) : TestPoint :=
  { pwm_us := cur, current_a := m.current_a, voltage_v := m.voltage_v,
    power_w := m.power_w, thrust_kg := m.thrust_kg }

/-- The sweep loop of `_run_test` (lines 159–196), iteration counter `k`
(the Python `step_count`), current setpoint `cur`, with an explicit
iteration bound `fuel`; `runTest` supplies the bound
`(max − min + 1).toNat`, which is sufficient whenever `step_us > 0` (the
only case in which the Python loop terminates).  One iteration: check the
loop guard `cur ≤ max`, observe the stop flag (`break` when set), command
the setpoint, measure (an exception aborts the loop), append the point,
update status, emit `point` and `progress`, advance by `step_us`. -/
def runLoop (cfg : ThrusterConfig) (step_us : Int) (env : Env) (total_steps : Int) :
    Nat → Int → Nat → RunState → Except (String × RunState) RunState
  | 0, _, _, st => .ok st
  | fuel+1, cur, k, st =>
    if cur ≤ cfg.max_pwm_us then
      if env.observe_stop k then .ok st
      else
        let pwm1 := set_pwm_us st.pwm cur
        match env.measure_outcome cur with
        | .error e => .error (e, { st with pwm := pwm1 })
        | .ok m =>
          let pt := mkLoopPoint cur m
          let prog : ℚ := (((k + 1 : Nat) : ℚ) / (total_steps : ℚ)) * 100
          let st' : RunState :=
            { st with
              pwm := pwm1
              points := st.points ++ [pt]
              events := st.events ++ [.point pt, .progress prog]
              status := { st.status with
                current_pwm_us := cur
                current_point := some pt
                progress_percent := prog } }
          runLoop cfg step_us env total_steps fuel (cur + step_us) (k + 1) st'
    else .ok st

/-- State effect of `self.pwm.arm(self.config.neutral_pwm_us)`
(line 144). -/
def armState (cfg : ThrusterConfig) (st : RunState) : RunState :=
  { st with pwm := armPWM st.pwm cfg.neutral_pwm_us }

/-- State effect of `self.pwm.ramp_to(self.config.min_pwm_us)`
(line 155). -/
def rampStartState (cfg : ThrusterConfig) (st : RunState) : RunState :=
  { st with pwm := ramp_to st.pwm cfg.min_pwm_us }

/-- State effect of `self.pwm.ramp_to(self.config.neutral_pwm_us)`
(line 200). -/
def rampNeutralState (cfg : ThrusterConfig) (st : RunState) : RunState :=
  { st with pwm := ramp_to st.pwm cfg.neutral_pwm_us }

/-- State effect of `self.pwm.disarm()` (line 201; `disarm`'s neutral
defaults to 1500). -/
def disarmState (st : RunState) : RunState :=
  { st with pwm := disarmPWM st.pwm 1500 }

/-- `total_steps = (max_pwm_us - min_pwm_us) // step_us + 1` (line 151). -/
def total_steps_of (cfg : ThrusterConfig) (step_us : Int) : Int :=
  (cfg.max_pwm_us - cfg.min_pwm_us).fdiv step_us + 1

/-- Iteration bound given to `runLoop`: sufficient whenever `step_us > 0`
(the only case in which the Python `while` loop terminates). -/
def loopFuel (cfg : ThrusterConfig) : Nat :=
  (cfg.max_pwm_us + 1 - cfg.min_pwm_us).toNat

/-- The `TestResult` assembled at lines 204–217: the collected points, a
deadband analysis of them at the configured neutral with the default
threshold (0.01 kg) and resolution (5 µs), and the run timestamps. -/
def mkResult (cfg : ThrusterConfig) (env : Env) (pts : List TestPoint) : TestResult :=
  { config := cfg, test_points := pts,
    deadband := some (analyze_deadband pts cfg.neutral_pwm_us (mkRat 1 100) 5),
    start_time := env.start_time, end_time := some env.end_time }

/-- The tail of the `try:` block after the sweep loop (lines 198–220):
ramp back to the configured neutral, disarm (at the `disarm` default
1500), assemble the `TestResult` into `_result`, and emit `complete`
unless `_stop_requested` is set. -/
def finishPhase (cfg : ThrusterConfig) (env : Env) (st3 : RunState) :
    Except (String × RunState) RunState :=
  match env.ramp_neutral_outcome with
  | .error e => .error (e, st3)
  | .ok _ =>
    match env.disarm_outcome with
    | .error e => .error (e, rampNeutralState cfg st3)
    | .ok _ =>
      let st5 := disarmState (rampNeutralState cfg st3)
      let res := mkResult cfg env st5.points
      let st6 : RunState := { st5 with result := some res }
      if env.final_stop then .ok st6
      else .ok { st6 with events := st6.events ++ [.complete res] }

/-- The `try:` block of `_run_test` (lines 141–220): arm, tare, compute
`total_steps` by floor division, ramp to the minimum, sweep, then
`finishPhase`.  An `.error` carries the raising collaborator's message
together with the state at the raise point. -/
def tryBody (cfg : ThrusterConfig) (step_us : Int) (env : Env) (st0 : RunState) :
    Except (String × RunState) RunState :=
  match env.arm_outcome with
  | .error e => .error (e, st0)
  | .ok _ =>
    match env.tare_outcome with
    | .error e => .error (e, armState cfg st0)
    | .ok _ =>
      match env.ramp_start_outcome with
      | .error e => .error (e, armState cfg st0)
      | .ok _ =>
        match runLoop cfg step_us env (total_steps_of cfg step_us) (loopFuel cfg)
            cfg.min_pwm_us 0 (rampStartState cfg (armState cfg st0)) with
        | .error es => .error es
        | .ok st3 => finishPhase cfg env st3

/-- `TestRunner._run_test` (lines 135–232): run the `try:` block; on an
exception, record `"Test error: " ++ msg` in the status, command the PWM
emergency stop, and emit the `error` event; in the `finally:` block clear
`is_running` and `is_paused`. -/
def runTest (cfg : ThrusterConfig) (step_us : Int) (env : Env) (pwm0 : PWMState)
    (status0 : TestStatus) : RunState :=
  match tryBody cfg step_us env (initRunState pwm0 status0) with
  | .ok st =>
    { st with status := { st.status with is_running := false, is_paused := false } }
  | .error (e, st) =>
    { st with
      pwm := emergency_stopPWM st.pwm
      status := { st.status with
                  error_message := some ("Test error: " ++ e)
                  is_running := false
                  is_paused := false }
      events := st.events ++ [.error ("Test error: " ++ e)] }

/-- The runner-level state visible to `TestRunner.emergency_stop`
(lines 128–133): the PWM state, the shared status, the stop flag, and the
runner's configuration. -/
structure RunnerCtl where
  config : ThrusterConfig
  pwm : PWMState
  status : TestStatus
  stop_requested : Bool
deriving DecidableEq, Repr

/-- `TestRunner.emergency_stop` (lines 128–133): set the stop flag,
command `PWMController.emergency_stop`, clear `is_running` and
`is_paused`.  Callable in any state, before or after `start`. -/
def runner_emergency_stop (c : RunnerCtl) : RunnerCtl :=
  { c with
    stop_requested := true
    pwm := emergency_stopPWM c.pwm
    status := { c.status with is_running := false, is_paused := false } }

/-- A fixed set of averaged readings for concrete runs. -/
def demoMeas : Measurement := { voltage_v := 12, current_a := 1, power_w := 12, thrust_kg := 0 }

/-- An environment in which every collaborator call succeeds and no stop
or pause is ever requested: an uninterrupted run. -/
def demoEnvOk : Env :=
  { arm_outcome := .ok (), tare_outcome := .ok (), ramp_start_outcome := .ok (),
    measure_outcome := fun _ => .ok demoMeas,
    ramp_neutral_outcome := .ok (), disarm_outcome := .ok (),
    observe_stop := fun _ => false, final_stop := false,
    start_time := 0, end_time := 1 }

/-- An environment in which the user requests a stop after the first sweep
iteration: `observe_stop` is false at iteration 0 and true from iteration
1 on, and the final `_stop_requested` read is true. -/
def demoEnvStop : Env :=
  { demoEnvOk with observe_stop := fun k => decide (1 ≤ k), final_stop := true }

/-- An environment whose `arm` call raises `"boom"`. -/
def demoEnvArmFail : Env := { demoEnvOk with arm_outcome := .error "boom" }

/-- Concrete scenario A configuration: `min = 1100`, `max = 1900`,
neutral at the default 1500. -/
def demoCfgA : ThrusterConfig := { min_pwm_us := 1100, max_pwm_us := 1900 }

/-- A small configuration (three sweep steps at `step_us = 10`) for
stopped-run scenarios. -/
def demoCfgSmall : ThrusterConfig :=
  { min_pwm_us := 1100, max_pwm_us := 1120, neutral_pwm_us := 1110 }

/-- A runner state whose configuration uses the default neutral 1500. -/
def demoCtl : RunnerCtl :=
  { config := demoCfgA, pwm := { current_pwm_us := 1800, is_armed := true },
    status := { is_running := true, is_paused := true }, stop_requested := false }

/-- A runner state whose configuration sets neutral to 1600 µs (the GUI
configuration frame accepts any neutral between min and max). -/
def demoCtl1600 : RunnerCtl :=
  { config := { min_pwm_us := 1100, max_pwm_us := 1900, neutral_pwm_us := 1600 },
    pwm := { current_pwm_us := 1700, is_armed := true },
    status := { is_running := true }, stop_requested := false }


/-- The setpoint sequence of the sweep loop in isolation: the control
variable starts at `cur`, and each iteration with `cur ≤ max` emits `cur`
and advances by `step` (same iteration bound discipline as `runLoop`). -/
def sweepPoints (maxP step : Int) : Nat → Int → List Int
  | 0, _ => []
  | fuel+1, cur => if cur ≤ maxP then cur :: sweepPoints maxP step fuel (cur + step) else []

def loopInv (st stq : RunState) : Prop :=
  stq.events.countP isErrorEvent = st.events.countP isErrorEvent ∧
  stq.events.countP isCompleteEvent = st.events.countP isCompleteEvent ∧
  stq.result = st.result ∧
  stq.status.error_message = st.status.error_message

theorem scanLower_eq_spec (neutral : Int) (thr : ℚ) (l : List TestPoint) :
    ∀ acc, scanLower neutral thr l acc =
      ((((l.filter (fun p => p.pwm_us ≤ neutral)).takeWhile
          (fun p => |p.thrust_kg| < thr)).map (fun p => p.pwm_us)).getLast?).getD acc := by
  induction l with
  | nil => intro acc; simp [scanLower]
  | cons p ps ih =>
    intro acc
    by_cases h1 : p.pwm_us > neutral
    · simp [scanLower, h1, List.filter_cons, show ¬ (p.pwm_us ≤ neutral) by omega, ih]
    · by_cases h2 : |p.thrust_kg| < thr
      · simp [scanLower, h1, h2, List.filter_cons, show p.pwm_us ≤ neutral by omega,
          List.takeWhile_cons, List.getLast?_cons, ih]
      · simp [scanLower, h1, h2, List.filter_cons, show p.pwm_us ≤ neutral by omega,
          List.takeWhile_cons]

theorem scanUpper_eq_spec (neutral : Int) (thr : ℚ) (l : List TestPoint) :
    ∀ acc, scanUpper neutral thr l acc =
      ((((l.filter (fun p => neutral ≤ p.pwm_us)).takeWhile
          (fun p => |p.thrust_kg| < thr)).map (fun p => p.pwm_us)).getLast?).getD acc := by
  induction l with
  | nil => intro acc; simp [scanUpper]
  | cons p ps ih =>
    intro acc
    by_cases h1 : p.pwm_us < neutral
    · simp [scanUpper, h1, List.filter_cons, show ¬ (neutral ≤ p.pwm_us) by omega, ih]
    · by_cases h2 : |p.thrust_kg| < thr
      · simp [scanUpper, h1, h2, List.filter_cons, show neutral ≤ p.pwm_us by omega,
          List.takeWhile_cons, List.getLast?_cons, ih]
      · simp [scanUpper, h1, h2, List.filter_cons, show neutral ≤ p.pwm_us by omega,
          List.takeWhile_cons]

theorem scanLower_le (neutral : Int) (thr : ℚ) (l : List TestPoint) :
    ∀ acc, acc ≤ neutral → scanLower neutral thr l acc ≤ neutral := by
  induction l with
  | nil => intro acc h; simpa [scanLower] using h
  | cons p ps ih =>
    intro acc h
    by_cases h1 : p.pwm_us > neutral
    · simpa [scanLower, h1] using ih acc h
    · by_cases h2 : |p.thrust_kg| < thr
      · simpa [scanLower, h1, h2] using ih p.pwm_us (by omega)
      · simpa [scanLower, h1, h2] using h

theorem scanUpper_ge (neutral : Int) (thr : ℚ) (l : List TestPoint) :
    ∀ acc, neutral ≤ acc → neutral ≤ scanUpper neutral thr l acc := by
  induction l with
  | nil => intro acc h; simpa [scanUpper] using h
  | cons p ps ih =>
    intro acc h
    by_cases h1 : p.pwm_us < neutral
    · simpa [scanUpper, h1] using ih acc h
    · by_cases h2 : |p.thrust_kg| < thr
      · simpa [scanUpper, h1, h2] using ih p.pwm_us (by omega)
      · simpa [scanUpper, h1, h2] using h

theorem rdown_facts (v r : Int) (hr : 0 < r) :
    r ∣ round_to_resolution v r true ∧ round_to_resolution v r true ≤ v ∧
      v < round_to_resolution v r true + r := by
  have hne : r ≠ 0 := by omega
  have hfd : v.fdiv r = v / r := Int.fdiv_eq_ediv v (by omega)
  have hmod := Int.ediv_add_emod v r
  have h1 : 0 ≤ v % r := Int.emod_nonneg v hne
  have h2 : v % r < r := Int.emod_lt_of_pos v hr
  have hq : (v / r) * r = v - v % r := by linarith [mul_comm (v / r) r]
  refine ⟨⟨v / r, by rw [round_to_resolution]; simp [hfd, mul_comm]⟩, ?_, ?_⟩ <;>
    simp [round_to_resolution, hfd, hq] <;> omega

theorem rup_facts (v r : Int) (hr : 0 < r) :
    r ∣ round_to_resolution v r false ∧ v ≤ round_to_resolution v r false ∧
      round_to_resolution v r false < v + r := by
  have hne : r ≠ 0 := by omega
  set w := v + r - 1 with hw
  have hfd : w.fdiv r = w / r := Int.fdiv_eq_ediv w (by omega)
  have hmod := Int.ediv_add_emod w r
  have h1 : 0 ≤ w % r := Int.emod_nonneg w hne
  have h2 : w % r < r := Int.emod_lt_of_pos w hr
  have hq : (w / r) * r = w - w % r := by linarith [mul_comm (w / r) r]
  refine ⟨⟨w / r, by rw [round_to_resolution]; simp [hfd, mul_comm]⟩, ?_, ?_⟩ <;>
    simp [round_to_resolution, hfd, hq] <;> omega

theorem runLoop_inv (cfg : ThrusterConfig) (step_us : Int) (env : Env) (total : Int) :
    ∀ (fuel : Nat) (cur : Int) (k : Nat) (st : RunState),
      (∀ stq, runLoop cfg step_us env total fuel cur k st = .ok stq → loopInv st stq) ∧
      (∀ e stq, runLoop cfg step_us env total fuel cur k st = .error (e, stq) → loopInv st stq) := by
  intro fuel
  induction fuel with
  | zero =>
    intro cur k st
    refine ⟨?_, ?_⟩
    · intro stq h
      simp only [runLoop] at h
      cases h
      exact ⟨rfl, rfl, rfl, rfl⟩
    · intro e stq h
      simp only [runLoop] at h
      exact Except.noConfusion h
  | succ m ih =>
    intro cur k st
    by_cases hg : cur ≤ cfg.max_pwm_us
    · by_cases hs : env.observe_stop k = true
      · refine ⟨?_, ?_⟩
        · intro stq h
          simp only [runLoop, if_pos hg, hs, if_true] at h
          cases h
          exact ⟨rfl, rfl, rfl, rfl⟩
        · intro e stq h
          simp only [runLoop, if_pos hg, hs, if_true] at h
          exact Except.noConfusion h
      · have hsq : env.observe_stop k = false := by simpa using hs
        cases hm : env.measure_outcome cur with
        | error e0 =>
          refine ⟨?_, ?_⟩
          · intro stq h
            simp only [runLoop, if_pos hg, hsq, Bool.false_eq_true, if_false, hm] at h
            exact Except.noConfusion h
          · intro e stq h
            simp only [runLoop, if_pos hg, hsq, Bool.false_eq_true, if_false, hm] at h
            rw [Except.error.injEq, Prod.mk.injEq] at h
            obtain ⟨he, hstq⟩ := h
            subst hstq
            exact ⟨rfl, rfl, rfl, rfl⟩
        | ok m0 =>
          refine ⟨?_, ?_⟩
          · intro stq h
            simp only [runLoop, if_pos hg, hsq, Bool.false_eq_true, if_false, hm] at h
            have := (ih (cur + step_us) (k + 1) _).1 stq h
            obtain ⟨i1, i2, i3, i4⟩ := this
            refine ⟨?_, ?_, ?_, ?_⟩ <;>
              simp_all [List.countP_append, isErrorEvent, isCompleteEvent, List.countP_cons]
          · intro e stq h
            simp only [runLoop, if_pos hg, hsq, Bool.false_eq_true, if_false, hm] at h
            have := (ih (cur + step_us) (k + 1) _).2 e stq h
            obtain ⟨i1, i2, i3, i4⟩ := this
            refine ⟨?_, ?_, ?_, ?_⟩ <;>
              simp_all [List.countP_append, isErrorEvent, isCompleteEvent, List.countP_cons]
    · refine ⟨?_, ?_⟩
      · intro stq h
        simp only [runLoop, if_neg hg] at h
        cases h
        exact ⟨rfl, rfl, rfl, rfl⟩
      · intro e stq h
        simp only [runLoop, if_neg hg] at h
        exact Except.noConfusion h

theorem finishPhase_error (cfg : ThrusterConfig) (env : Env) (st3 : RunState)
    (e : String) (stf : RunState) (h : finishPhase cfg env st3 = .error (e, stf)) :
    stf.events = st3.events ∧ stf.result = st3.result ∧ stf.status = st3.status := by
  cases orn : env.ramp_neutral_outcome with
  | error e0 =>
    simp only [finishPhase, orn] at h
    rw [Except.error.injEq, Prod.mk.injEq] at h
    obtain ⟨he, hst⟩ := h
    subst hst
    exact ⟨rfl, rfl, rfl⟩
  | ok u =>
    cases od : env.disarm_outcome with
    | error e0 =>
      simp only [finishPhase, orn, od] at h
      rw [Except.error.injEq, Prod.mk.injEq] at h
      obtain ⟨he, hst⟩ := h
      subst hst
      exact ⟨rfl, rfl, rfl⟩
    | ok u2 =>
      cases hfs : env.final_stop with
      | true =>
        simp only [finishPhase, orn, od, hfs, if_true] at h
        exact Except.noConfusion h
      | false =>
        simp only [finishPhase, orn, od, hfs, Bool.false_eq_true, if_false] at h
        exact Except.noConfusion h

theorem finishPhase_ok (cfg : ThrusterConfig) (env : Env) (st3 : RunState)
    (stf : RunState) (h : finishPhase cfg env st3 = .ok stf) :
    stf.points = st3.points ∧
    stf.result = some (mkResult cfg env st3.points) ∧
    stf.pwm.is_armed = false ∧
    stf.pwm.current_pwm_us = 1500 ∧
    stf.status = st3.status ∧
    stf.events = (st3.events ++
      (if env.final_stop then [] else [.complete (mkResult cfg env st3.points)])) := by
  cases orn : env.ramp_neutral_outcome with
  | error e0 =>
    simp only [finishPhase, orn] at h
    exact Except.noConfusion h
  | ok u =>
    cases od : env.disarm_outcome with
    | error e0 =>
      simp only [finishPhase, orn, od] at h
      exact Except.noConfusion h
    | ok u2 =>
      cases hfs : env.final_stop with
      | true =>
        simp only [finishPhase, orn, od, hfs, if_true] at h
        cases h
        refine ⟨rfl, rfl, rfl, rfl, rfl, by simp [disarmState, rampNeutralState]⟩
      | false =>
        simp only [finishPhase, orn, od, hfs, Bool.false_eq_true, if_false] at h
        cases h
        refine ⟨rfl, rfl, rfl, rfl, rfl, by simp [disarmState, rampNeutralState]⟩

theorem tryBody_error_inv (cfg : ThrusterConfig) (step_us : Int) (env : Env)
    (st0 : RunState) (e : String) (stf : RunState)
    (h : tryBody cfg step_us env st0 = .error (e, stf)) :
    stf.events.countP isErrorEvent = st0.events.countP isErrorEvent ∧
    stf.events.countP isCompleteEvent = st0.events.countP isCompleteEvent ∧
    stf.result = st0.result ∧
    stf.status.error_message = st0.status.error_message := by
  cases oa : env.arm_outcome with
  | error e0 =>
    simp only [tryBody, oa] at h
    rw [Except.error.injEq, Prod.mk.injEq] at h
    obtain ⟨he, hst⟩ := h
    subst hst
    exact ⟨rfl, rfl, rfl, rfl⟩
  | ok u =>
    cases ot : env.tare_outcome with
    | error e0 =>
      simp only [tryBody, oa, ot] at h
      rw [Except.error.injEq, Prod.mk.injEq] at h
      obtain ⟨he, hst⟩ := h
      subst hst
      exact ⟨rfl, rfl, rfl, rfl⟩
    | ok u2 =>
      cases ors : env.ramp_start_outcome with
      | error e0 =>
        simp only [tryBody, oa, ot, ors] at h
        rw [Except.error.injEq, Prod.mk.injEq] at h
        obtain ⟨he, hst⟩ := h
        subst hst
        exact ⟨rfl, rfl, rfl, rfl⟩
      | ok u3 =>
        cases hl : runLoop cfg step_us env (total_steps_of cfg step_us) (loopFuel cfg)
            cfg.min_pwm_us 0 (rampStartState cfg (armState cfg st0)) with
        | error es =>
          simp only [tryBody, oa, ot, ors, hl] at h
          rw [Except.error.injEq] at h
          subst h
          have hi := (runLoop_inv cfg step_us env (total_steps_of cfg step_us) (loopFuel cfg)
              cfg.min_pwm_us 0 (rampStartState cfg (armState cfg st0))).2 e stf hl
          obtain ⟨i1, i2, i3, i4⟩ := hi
          refine ⟨?_, ?_, ?_, ?_⟩ <;> simp_all [rampStartState, armState]
        | ok st3 =>
          simp only [tryBody, oa, ot, ors, hl] at h
          obtain ⟨f1, f2, f3⟩ := finishPhase_error cfg env st3 e stf h
          have hi := (runLoop_inv cfg step_us env (total_steps_of cfg step_us) (loopFuel cfg)
              cfg.min_pwm_us 0 (rampStartState cfg (armState cfg st0))).1 st3 hl
          obtain ⟨i1, i2, i3, i4⟩ := hi
          refine ⟨?_, ?_, ?_, ?_⟩ <;> simp_all [rampStartState, armState]

theorem tryBody_ok_inv (cfg : ThrusterConfig) (step_us : Int) (env : Env)
    (st0 : RunState) (stf : RunState)
    (h : tryBody cfg step_us env st0 = .ok stf) :
    stf.result = some (mkResult cfg env stf.points) ∧
    stf.pwm.is_armed = false ∧
    stf.pwm.current_pwm_us = 1500 ∧
    stf.events.countP isCompleteEvent =
      ((if env.final_stop then 0 else 1) + st0.events.countP isCompleteEvent) ∧
    stf.events.countP isErrorEvent = st0.events.countP isErrorEvent ∧
    stf.status.error_message = st0.status.error_message := by
  cases oa : env.arm_outcome with
  | error e0 =>
    simp only [tryBody, oa] at h
    exact Except.noConfusion h
  | ok u =>
    cases ot : env.tare_outcome with
    | error e0 =>
      simp only [tryBody, oa, ot] at h
      exact Except.noConfusion h
    | ok u2 =>
      cases ors : env.ramp_start_outcome with
      | error e0 =>
        simp only [tryBody, oa, ot, ors] at h
        exact Except.noConfusion h
      | ok u3 =>
        cases hl : runLoop cfg step_us env (total_steps_of cfg step_us) (loopFuel cfg)
            cfg.min_pwm_us 0 (rampStartState cfg (armState cfg st0)) with
        | error es =>
          simp only [tryBody, oa, ot, ors, hl] at h
          exact Except.noConfusion h
        | ok st3 =>
          simp only [tryBody, oa, ot, ors, hl] at h
          obtain ⟨f1, f2, f3, f4, f5, f6⟩ := finishPhase_ok cfg env st3 stf h
          have hi := (runLoop_inv cfg step_us env (total_steps_of cfg step_us) (loopFuel cfg)
              cfg.min_pwm_us 0 (rampStartState cfg (armState cfg st0))).1 st3 hl
          obtain ⟨i1, i2, i3, i4⟩ := hi
          refine ⟨?_, f3, f4, ?_, ?_, ?_⟩
          · rw [f2, f1]
          · rw [f6]
            cases hfs : env.final_stop <;>
              simp_all [List.countP_append, List.countP_cons, isCompleteEvent,
                rampStartState, armState] <;> omega
          · rw [f6]
            cases hfs : env.final_stop <;>
              simp_all [List.countP_append, List.countP_cons, isErrorEvent,
                rampStartState, armState]
          · rw [f5]
            simpa [rampStartState, armState] using i4


theorem sweepPoints_eq (maxP step : Int) (hstep : 0 < step) :
    ∀ (fuel : Nat) (cur : Int), cur ≤ maxP → (maxP + 1 - cur).toNat ≤ fuel →
      sweepPoints maxP step fuel cur =
        (List.range (((maxP - cur).fdiv step).toNat + 1)).map (fun i : Nat => cur + (i : Int) * step) := by
  intro fuel
  induction fuel with
  | zero => intro cur hc hf; omega
  | succ m ih =>
    intro cur hc hf
    simp only [sweepPoints, if_pos hc]
    by_cases h2 : cur + step ≤ maxP
    · have hsub : maxP - (cur + step) = maxP - cur - step := by ring
      have hq : (maxP - cur).fdiv step = (maxP - cur - step).fdiv step + 1 := by
        rw [Int.fdiv_eq_ediv _ (le_of_lt hstep), Int.fdiv_eq_ediv _ (le_of_lt hstep)]
        have h3 : maxP - cur = maxP - cur - step + 1 * step := by ring
        rw [h3, Int.add_mul_ediv_right _ _ (by omega : step ≠ 0)]
        ring_nf
      have hnn : 0 ≤ (maxP - cur - step).fdiv step := by
        rw [Int.fdiv_eq_ediv _ (le_of_lt hstep)]
        exact Int.ediv_nonneg (by omega) (by omega)
      have htn : (((maxP - cur).fdiv step).toNat + 1) =
          (((maxP - cur - step).fdiv step).toNat + 1) + 1 := by omega
      have hrm : ∀ (a : Int) (n : Nat),
          (List.range (n + 1)).map (fun i : Nat => a + (i : Int) * step) =
            a :: (List.range n).map (fun i : Nat => a + step + (i : Int) * step) := by
        intro a n
        rw [List.range_succ_eq_map]
        simp only [List.map_cons, List.map_map, Nat.cast_zero, zero_mul, add_zero]
        congr 1
        apply List.map_congr_left
        intro i _
        simp only [Function.comp_apply]
        push_cast
        ring
      rw [ih (cur + step) h2 (by omega), hsub, htn,
        hrm cur (((maxP - cur - step).fdiv step).toNat + 1)]
    · have hrec : sweepPoints maxP step m (cur + step) = [] := by
        cases m with
        | zero => rfl
        | succ m2 => simp [sweepPoints, show ¬(cur + step ≤ maxP) by omega]
      rw [hrec]
      have hq : (maxP - cur).fdiv step = 0 := by
        rw [Int.fdiv_eq_ediv _ (le_of_lt hstep)]
        exact Int.ediv_eq_zero_of_lt (by omega) (by omega)
      rw [hq]
      have h1 : List.range 1 = [0] := rfl
      simp [h1]

theorem runLoop_total (cfg : ThrusterConfig) (step_us : Int) (env : Env) (total : Int)
    (M : Int → Measurement)
    (hstop : ∀ k, env.observe_stop k = false)
    (hM : ∀ s, env.measure_outcome s = .ok (M s)) :
    ∀ (fuel : Nat) (cur : Int) (k : Nat) (st : RunState),
      ∃ stq, runLoop cfg step_us env total fuel cur k st = .ok stq ∧
        stq.points = st.points ++
          (sweepPoints cfg.max_pwm_us step_us fuel cur).map (fun s => mkLoopPoint s (M s)) ∧
        stq.events.filterMap eventPoint = st.events.filterMap eventPoint ++
          (sweepPoints cfg.max_pwm_us step_us fuel cur).map (fun s => mkLoopPoint s (M s)) := by
  intro fuel
  induction fuel with
  | zero =>
    intro cur k st
    exact ⟨st, rfl, by simp [sweepPoints], by simp [sweepPoints]⟩
  | succ m ih =>
    intro cur k st
    by_cases hg : cur ≤ cfg.max_pwm_us
    · simp only [runLoop, if_pos hg, hstop k, Bool.false_eq_true, if_false, hM cur]
      obtain ⟨stq, h1, h2, h3⟩ := ih (cur + step_us) (k + 1)
        { st with
          pwm := set_pwm_us st.pwm cur
          points := st.points ++ [mkLoopPoint cur (M cur)]
          events := st.events ++ [.point (mkLoopPoint cur (M cur)),
            .progress ((((k + 1 : Nat) : ℚ) / (total : ℚ)) * 100)]
          status := { st.status with
            current_pwm_us := cur
            current_point := some (mkLoopPoint cur (M cur))
            progress_percent := (((k + 1 : Nat) : ℚ) / (total : ℚ)) * 100 } }
      refine ⟨stq, h1, ?_, ?_⟩
      · rw [h2]
        simp [sweepPoints, if_pos hg]
      · rw [h3]
        simp [sweepPoints, if_pos hg, eventPoint]
    · refine ⟨st, ?_, ?_, ?_⟩ <;> simp [runLoop, sweepPoints, if_neg hg]

/-- Unfolding of `analyze_deadband` on a nonempty point list. -/
theorem analyze_deadband_of_ne (pts : List TestPoint) (neutral : Int) (thr : ℚ) (res : Int)
    (hp : pts.isEmpty = false) :
    analyze_deadband pts neutral thr res =
      { min_off_pwm_us :=
          round_to_resolution (scanLower neutral thr (sortByPwm pts).reverse neutral) res true
        max_off_pwm_us :=
          round_to_resolution (scanUpper neutral thr (sortByPwm pts) neutral) res false
        midpoint_pwm_us :=
          ((round_to_resolution (scanLower neutral thr (sortByPwm pts).reverse neutral) res true : ℚ) +
            (round_to_resolution (scanUpper neutral thr (sortByPwm pts) neutral) res false : ℚ)) / 2
        range_us :=
          round_to_resolution (scanUpper neutral thr (sortByPwm pts) neutral) res false -
            round_to_resolution (scanLower neutral thr (sortByPwm pts).reverse neutral) res true } := by
  simp [analyze_deadband, hp]

/-- C2 (amended): for every point list, integer neutral, and positive
resolution, `analyze_deadband` returns bounds with `lower ≤ neutral ≤
upper` and `range = upper − lower ≥ 0`; for every NONEMPTY point list both
bounds are exact integer multiples of the resolution (the empty-input
branch returns the unrounded neutral). -/
theorem C2_deadband_invariants (pts : List TestPoint) (neutral : Int) (thr : ℚ) (res : Int)
    (hres : 0 < res) :
    (analyze_deadband pts neutral thr res).min_off_pwm_us ≤ neutral ∧
    neutral ≤ (analyze_deadband pts neutral thr res).max_off_pwm_us ∧
    (analyze_deadband pts neutral thr res).range_us =
      (analyze_deadband pts neutral thr res).max_off_pwm_us -
        (analyze_deadband pts neutral thr res).min_off_pwm_us ∧
    0 ≤ (analyze_deadband pts neutral thr res).range_us ∧
    (pts ≠ [] →
      res ∣ (analyze_deadband pts neutral thr res).min_off_pwm_us ∧
      res ∣ (analyze_deadband pts neutral thr res).max_off_pwm_us) := by
  by_cases hp : pts.isEmpty
  · have hnil : pts = [] := List.isEmpty_iff.mp hp
    subst hnil
    simp [analyze_deadband]
  · have hp' : pts.isEmpty = false := by simpa using hp
    have h1 := scanLower_le neutral thr (sortByPwm pts).reverse neutral le_rfl
    have h2 := scanUpper_ge neutral thr (sortByPwm pts) neutral le_rfl
    obtain ⟨d1, d2, d3⟩ :=
      rdown_facts (scanLower neutral thr (sortByPwm pts).reverse neutral) res hres
    obtain ⟨u1, u2, u3⟩ :=
      rup_facts (scanUpper neutral thr (sortByPwm pts) neutral) res hres
    rw [analyze_deadband_of_ne pts neutral thr res hp']
    dsimp only
    refine ⟨by omega, by omega, by omega, by omega, fun _ => ⟨d1, u1⟩⟩

/-- C2 counterexample: on the empty point list with neutral `7`, positive
threshold `0.01` and positive resolution `5`, the returned lower bound is
`7`, which is not a multiple of the resolution — refuting the claim's
"both bounds exact integer multiples of the resolution" for every list. -/
theorem C2_counterexample :
    (0 : ℚ) < mkRat 1 100 ∧ (0 : Int) < 5 ∧
    (analyze_deadband [] 7 (mkRat 1 100) 5).min_off_pwm_us = 7 ∧
    ¬ (5 : Int) ∣ (analyze_deadband [] 7 (mkRat 1 100) 5).min_off_pwm_us := by decide

/-- C2 witness: the amended invariants instantiated on a one-point list. -/
theorem C2_deadband_invariants_witness :
    (0 : Int) < 5 ∧
    ((analyze_deadband [mkThrustPoint 1500 0] 1500 (mkRat 1 100) 5).min_off_pwm_us ≤ 1500 ∧
     (1500 : Int) ≤ (analyze_deadband [mkThrustPoint 1500 0] 1500 (mkRat 1 100) 5).max_off_pwm_us ∧
     (analyze_deadband [mkThrustPoint 1500 0] 1500 (mkRat 1 100) 5).range_us =
       (analyze_deadband [mkThrustPoint 1500 0] 1500 (mkRat 1 100) 5).max_off_pwm_us -
         (analyze_deadband [mkThrustPoint 1500 0] 1500 (mkRat 1 100) 5).min_off_pwm_us ∧
     0 ≤ (analyze_deadband [mkThrustPoint 1500 0] 1500 (mkRat 1 100) 5).range_us ∧
     ([mkThrustPoint 1500 0] ≠ [] →
       (5 : Int) ∣ (analyze_deadband [mkThrustPoint 1500 0] 1500 (mkRat 1 100) 5).min_off_pwm_us ∧
       (5 : Int) ∣ (analyze_deadband [mkThrustPoint 1500 0] 1500 (mkRat 1 100) 5).max_off_pwm_us)) :=
  ⟨by decide, C2_deadband_invariants [mkThrustPoint 1500 0] 1500 (mkRat 1 100) 5 (by decide)⟩

/-- C3: the imperative downward scan of `analyze_deadband` equals its
declarative description (descending scan over points with setpoint ≤
neutral, tracking the below-threshold setpoints, stopping at the first
point at or above the threshold), symmetrically for the upward scan; and
in concrete scenario C (threshold `0.001`, a `0.002`-thrust point at
`1495`) the scan stops at `1495` and the lower bound lands on `1500`, the
nearest still-below-threshold setpoint closer to neutral. -/
theorem C3_scan_behavior :
    (∀ (neutral : Int) (thr : ℚ) (pts : List TestPoint),
        scanLower neutral thr ((sortByPwm pts).reverse) neutral =
          lowerBoundSpec neutral thr ((sortByPwm pts).reverse) ∧
        scanUpper neutral thr (sortByPwm pts) neutral =
          upperBoundSpec neutral thr (sortByPwm pts)) ∧
    scanLower 1500 (mkRat 1 1000) ((sortByPwm scenarioCPoints).reverse) 1500 = 1500 ∧
    (analyze_deadband scenarioCPoints 1500 (mkRat 1 1000) 5).min_off_pwm_us = 1500 := by
  refine ⟨fun neutral thr pts =>
    ⟨by simpa [lowerBoundSpec] using scanLower_eq_spec neutral thr (sortByPwm pts).reverse neutral,
     by simpa [upperBoundSpec] using scanUpper_eq_spec neutral thr (sortByPwm pts) neutral⟩,
    ?_, ?_⟩ <;> decide

/-- C4: for every integer value and positive resolution,
`round_to_resolution` with `round_down = true` returns the greatest
multiple of the resolution not exceeding the value (rounding toward
negative infinity), and with `round_down = false` the least multiple of
the resolution not below the value (rounding toward positive infinity). -/
theorem C4_rounding_law (v r : Int) (hr : 0 < r) :
    (r ∣ round_to_resolution v r true ∧ round_to_resolution v r true ≤ v ∧
      v < round_to_resolution v r true + r) ∧
    (r ∣ round_to_resolution v r false ∧ v ≤ round_to_resolution v r false ∧
      round_to_resolution v r false < v + r) :=
  ⟨rdown_facts v r hr, rup_facts v r hr⟩

/-- C4 witness: the rounding law instantiated at value `-7`, resolution
`5` (floor-rounding gives `-10`, ceiling-rounding gives `-5`). -/
theorem C4_rounding_law_witness :
    (0 : Int) < 5 ∧
    (((5 : Int) ∣ round_to_resolution (-7) 5 true ∧ round_to_resolution (-7) 5 true ≤ -7 ∧
      (-7 : Int) < round_to_resolution (-7) 5 true + 5) ∧
     ((5 : Int) ∣ round_to_resolution (-7) 5 false ∧ (-7 : Int) ≤ round_to_resolution (-7) 5 false ∧
      round_to_resolution (-7) 5 false < -7 + 5)) :=
  ⟨by decide, C4_rounding_law (-7) 5 (by decide)⟩

/-- C5: on an empty point list `analyze_deadband` returns lower = upper =
neutral, midpoint = neutral (as a rational, modelling the Python float),
and range = 0, for every neutral, threshold and resolution. -/
theorem C5_empty_input (neutral : Int) (thr : ℚ) (res : Int) :
    analyze_deadband [] neutral thr res =
      { min_off_pwm_us := neutral, max_off_pwm_us := neutral,
        midpoint_pwm_us := (neutral : ℚ), range_us := 0 } := by
  simp [analyze_deadband]

theorem take_measurement_lists (n : Nat) (pr : Nat → ℚ × ℚ × ℚ) (lr : Nat → ℚ) :
    (List.range n).foldl
      (fun (acc : List ℚ × List ℚ × List ℚ) k =>
        (acc.1 ++ [(pr k).1], acc.2.1 ++ [(pr k).2.1], acc.2.2 ++ [lr k]))
      ([], [], []) =
      ((List.range n).map fun k => (pr k).1,
       (List.range n).map fun k => (pr k).2.1,
       (List.range n).map lr) := by
  induction n with
  | zero => simp
  | succ m ih => rw [List.range_succ, List.foldl_append, ih]; simp

theorem take_measurement_eq (pwm : Int) (n : Nat) (pr : Nat → ℚ × ℚ × ℚ) (lr : Nat → ℚ) :
    take_measurement pwm n pr lr =
      { pwm_us := pwm
        current_a := (((List.range n).map fun k => (pr k).2.1).sum) / n
        voltage_v := (((List.range n).map fun k => (pr k).1).sum) / n
        power_w := ((((List.range n).map fun k => (pr k).1).sum) / n) *
          ((((List.range n).map fun k => (pr k).2.1).sum) / n)
        thrust_kg := (((List.range n).map lr).sum) / n } := by
  unfold take_measurement
  rw [take_measurement_lists]
  simp

/-- C6: for every setpoint and sample count `n ≥ 1`, the point returned by
`_take_measurement` carries the setpoint, each of voltage, current and
thrust is the arithmetic mean of that channel's `n` readings, and power is
mean-voltage × mean-current — which, as the final conjunct shows on
concrete readings, differs from the mean of the per-sample power
products. -/
theorem C6_sampler_means (pwm : Int) (n : Nat) (pr : Nat → ℚ × ℚ × ℚ) (lr : Nat → ℚ)
    (hn : 1 ≤ n) :
    (take_measurement pwm n pr lr).pwm_us = pwm ∧
    (take_measurement pwm n pr lr).voltage_v = (((List.range n).map fun k => (pr k).1).sum) / n ∧
    (take_measurement pwm n pr lr).current_a = (((List.range n).map fun k => (pr k).2.1).sum) / n ∧
    (take_measurement pwm n pr lr).thrust_kg = (((List.range n).map lr).sum) / n ∧
    (take_measurement pwm n pr lr).power_w =
      ((((List.range n).map fun k => (pr k).1).sum) / n) *
        ((((List.range n).map fun k => (pr k).2.1).sum) / n) ∧
    (take_measurement 1500 2 demoPowerRead (fun _ => 0)).power_w ≠
      (((List.range 2).map fun k => (demoPowerRead k).1 * (demoPowerRead k).2.1).sum) / 2 := by
  rw [take_measurement_eq]
  refine ⟨rfl, rfl, rfl, rfl, rfl, ?_⟩
  rw [take_measurement_eq]
  have h2 : List.range 2 = [0, 1] := by decide
  simp [h2, demoPowerRead]
  norm_num

/-- C6 witness: the sampler law instantiated at setpoint 1500 with the
two-sample demonstration readings. -/
theorem C6_sampler_means_witness :
    (1 ≤ 2) ∧
    ((take_measurement 1500 2 demoPowerRead (fun _ => 0)).pwm_us = 1500 ∧
     (take_measurement 1500 2 demoPowerRead (fun _ => 0)).voltage_v =
       (((List.range 2).map fun k => (demoPowerRead k).1).sum) / 2 ∧
     (take_measurement 1500 2 demoPowerRead (fun _ => 0)).current_a =
       (((List.range 2).map fun k => (demoPowerRead k).2.1).sum) / 2 ∧
     (take_measurement 1500 2 demoPowerRead (fun _ => 0)).thrust_kg =
       (((List.range 2).map (fun _ => (0 : ℚ))).sum) / 2 ∧
     (take_measurement 1500 2 demoPowerRead (fun _ => 0)).power_w =
       ((((List.range 2).map fun k => (demoPowerRead k).1).sum) / 2) *
         ((((List.range 2).map fun k => (demoPowerRead k).2.1).sum) / 2) ∧
     (take_measurement 1500 2 demoPowerRead (fun _ => 0)).power_w ≠
       (((List.range 2).map fun k => (demoPowerRead k).1 * (demoPowerRead k).2.1).sum) / 2) :=
  ⟨by decide, C6_sampler_means 1500 2 demoPowerRead (fun _ => 0) (by decide)⟩

/-- C7 (amended): `TestRunner.emergency_stop`, called in any state
(including before `start`), commands the actuator to the hard-coded
1500 µs — which coincides with the configured neutral exactly when the
configuration uses the default 1500 — clears the armed flag, clears the
running and paused flags, and raises the stop flag. -/
theorem C7_emergency_stop (c : RunnerCtl) :
    (runner_emergency_stop c).pwm.current_pwm_us = 1500 ∧
    (runner_emergency_stop c).pwm.is_armed = false ∧
    (runner_emergency_stop c).status.is_running = false ∧
    (runner_emergency_stop c).status.is_paused = false ∧
    (runner_emergency_stop c).stop_requested = true ∧
    (c.config.neutral_pwm_us = 1500 →
      (runner_emergency_stop c).pwm.current_pwm_us = c.config.neutral_pwm_us) :=
  ⟨rfl, rfl, rfl, rfl, rfl, fun h => by rw [h]; rfl⟩

/-- C7 counterexample: with neutral configured to 1600 µs (reachable from
the configuration frame), `emergency_stop` leaves the actuator at
1500 µs, not at the configured neutral — refuting "commanded to the
configured neutral setpoint" as stated. -/
theorem C7_counterexample :
    demoCtl1600.config.neutral_pwm_us = 1600 ∧
    (runner_emergency_stop demoCtl1600).pwm.current_pwm_us = 1500 ∧
    (runner_emergency_stop demoCtl1600).pwm.current_pwm_us ≠
      demoCtl1600.config.neutral_pwm_us := by decide

/-- C7 witness: the amended statement instantiated on a running, paused,
armed state whose configuration uses the default neutral 1500. -/
theorem C7_emergency_stop_witness :
    (runner_emergency_stop demoCtl).pwm.current_pwm_us = 1500 ∧
    (runner_emergency_stop demoCtl).pwm.is_armed = false ∧
    (runner_emergency_stop demoCtl).status.is_running = false ∧
    (runner_emergency_stop demoCtl).status.is_paused = false ∧
    (runner_emergency_stop demoCtl).stop_requested = true ∧
    (demoCtl.config.neutral_pwm_us = 1500 →
      (runner_emergency_stop demoCtl).pwm.current_pwm_us = demoCtl.config.neutral_pwm_us) :=
  C7_emergency_stop demoCtl

/-- C8: when any collaborator raises during arming, taring, ramping, or
sampling (i.e. the try-block of `_run_test` ends in an error), the
exception is caught at the run-loop boundary: the status records
`"Test error: " ++ msg`, exactly one `error` event is emitted and it is
the last event, no `complete` event is emitted, the actuator is forced to
1500 µs through the emergency path with the armed flag cleared, no result
is produced (so nothing is retried), and the running and paused flags are
false on exit. -/
theorem C8_failure_semantics (cfg : ThrusterConfig) (step_us : Int) (env : Env)
    (pwm0 : PWMState) (status0 : TestStatus) (e : String) (stf : RunState) (o : RunState)
    (ho : o = runTest cfg step_us env pwm0 status0)
    (h : tryBody cfg step_us env (initRunState pwm0 status0) = .error (e, stf)) :
    o.status.error_message = some ("Test error: " ++ e) ∧
    o.events.countP isErrorEvent = 1 ∧
    o.events.countP isCompleteEvent = 0 ∧
    o.events.getLast? = some (.error ("Test error: " ++ e)) ∧
    o.pwm.current_pwm_us = 1500 ∧
    o.pwm.is_armed = false ∧
    o.result = none ∧
    o.status.is_running = false ∧
    o.status.is_paused = false := by
  subst ho
  obtain ⟨i1, i2, i3, i4⟩ := tryBody_error_inv cfg step_us env (initRunState pwm0 status0) e stf h
  simp only [initRunState, List.countP_nil] at i1 i2 i3 i4
  refine ⟨?_, ?_, ?_, ?_, ?_, ?_, ?_, ?_, ?_⟩ <;>
    simp only [runTest, h] <;>
    first
      | rfl
      | simp [List.countP_append, List.countP_cons, isErrorEvent, isCompleteEvent,
          i1, i2, List.getLast?_concat]
      | exact i3

/-- C8 witness: the failure semantics instantiated on a run whose `arm`
call raises `"boom"`. -/
theorem C8_failure_semantics_witness :
    (tryBody demoCfgSmall 10 demoEnvArmFail (initRunState {} {}) =
      .error ("boom", initRunState {} {})) ∧
    ((runTest demoCfgSmall 10 demoEnvArmFail {} {}).status.error_message =
       some ("Test error: " ++ "boom") ∧
     (runTest demoCfgSmall 10 demoEnvArmFail {} {}).events.countP isErrorEvent = 1 ∧
     (runTest demoCfgSmall 10 demoEnvArmFail {} {}).events.countP isCompleteEvent = 0 ∧
     (runTest demoCfgSmall 10 demoEnvArmFail {} {}).events.getLast? =
       some (.error ("Test error: " ++ "boom")) ∧
     (runTest demoCfgSmall 10 demoEnvArmFail {} {}).pwm.current_pwm_us = 1500 ∧
     (runTest demoCfgSmall 10 demoEnvArmFail {} {}).pwm.is_armed = false ∧
     (runTest demoCfgSmall 10 demoEnvArmFail {} {}).result = none ∧
     (runTest demoCfgSmall 10 demoEnvArmFail {} {}).status.is_running = false ∧
     (runTest demoCfgSmall 10 demoEnvArmFail {} {}).status.is_paused = false) :=
  ⟨rfl, C8_failure_semantics demoCfgSmall 10 demoEnvArmFail {} {} "boom"
    (initRunState {} {}) (runTest demoCfgSmall 10 demoEnvArmFail {} {}) rfl rfl⟩

/-- C9 (amended): on a plain user-requested stop of a run with no
collaborator failure, the completion event is suppressed, but the partial
result is still assembled and retained in the runner's `result` property
(not discarded), and the post-sweep return to neutral and disarm are still
performed (armed flag false, actuator at 1500 µs after `disarm`). -/
theorem C9_stop_semantics (cfg : ThrusterConfig) (step_us : Int) (env : Env)
    (pwm0 : PWMState) (status0 : TestStatus) (o : RunState)
    (ho : o = runTest cfg step_us env pwm0 status0)
    (hstop : env.final_stop = true)
    (hne : o.status.error_message = none) :
    o.events.countP isCompleteEvent = 0 ∧
    o.result ≠ none ∧
    o.pwm.is_armed = false ∧
    o.pwm.current_pwm_us = 1500 := by
  subst ho
  cases htb : tryBody cfg step_us env (initRunState pwm0 status0) with
  | error es =>
    cases es with
    | mk e st =>
      exfalso
      simp only [runTest, htb] at hne
      exact Option.noConfusion hne
  | ok st =>
    obtain ⟨f1, f2, f3, f4, f5, f6⟩ :=
      tryBody_ok_inv cfg step_us env (initRunState pwm0 status0) st htb
    simp only [initRunState, List.countP_nil, hstop, if_true] at f4 f5 f6
    simp only [runTest, htb]
    refine ⟨f4, ?_, f2, f3⟩
    simp [f1]

/-- C9 counterexample: a concrete run stopped after one collected point
suppresses the completion event, yet its result is retained
(`result.isSome`), refuting the claim's "discards the partial result". -/
theorem C9_counterexample :
    (runTest demoCfgSmall 10 demoEnvStop {} {}).events.countP isCompleteEvent = 0 ∧
    (runTest demoCfgSmall 10 demoEnvStop {} {}).points.length = 1 ∧
    (runTest demoCfgSmall 10 demoEnvStop {} {}).result.isSome = true ∧
    (runTest demoCfgSmall 10 demoEnvStop {} {}).status.error_message = none := by
  refine ⟨?_, ?_, ?_, ?_⟩ <;> decide

/-- C9 witness: the amended stop semantics instantiated on a concrete
stopped run. -/
theorem C9_stop_semantics_witness :
    demoEnvStop.final_stop = true ∧
    (runTest demoCfgSmall 10 demoEnvStop {} {}).status.error_message = none ∧
    ((runTest demoCfgSmall 10 demoEnvStop {} {}).events.countP isCompleteEvent = 0 ∧
     (runTest demoCfgSmall 10 demoEnvStop {} {}).result ≠ none ∧
     (runTest demoCfgSmall 10 demoEnvStop {} {}).pwm.is_armed = false ∧
     (runTest demoCfgSmall 10 demoEnvStop {} {}).pwm.current_pwm_us = 1500) :=
  ⟨rfl, by decide,
   C9_stop_semantics demoCfgSmall 10 demoEnvStop {} {}
     (runTest demoCfgSmall 10 demoEnvStop {} {}) rfl rfl (by decide)⟩

/-- C10: after a user-requested stop of a failure-free run that collected
at least one point, the runner's `result` is a fully assembled
`TestResult` — the configuration, the partial point sequence, a deadband
analysis over exactly those points at the configured neutral with default
threshold and resolution, and the start/end timestamps — even though no
`complete` event was emitted. -/
theorem C10_partial_result (cfg : ThrusterConfig) (step_us : Int) (env : Env)
    (pwm0 : PWMState) (status0 : TestStatus) (o : RunState)
    (ho : o = runTest cfg step_us env pwm0 status0)
    (hstop : env.final_stop = true)
    (hne : o.status.error_message = none)
    (hpts : o.points ≠ []) :
    o.result = some
      { config := cfg, test_points := o.points,
        deadband := some (analyze_deadband o.points cfg.neutral_pwm_us (mkRat 1 100) 5),
        start_time := env.start_time, end_time := some env.end_time,
        notes := "", test_id := none } ∧
    o.events.countP isCompleteEvent = 0 := by
  subst ho
  cases htb : tryBody cfg step_us env (initRunState pwm0 status0) with
  | error es =>
    cases es with
    | mk e st =>
      exfalso
      simp only [runTest, htb] at hne
      exact Option.noConfusion hne
  | ok st =>
    obtain ⟨f1, f2, f3, f4, f5, f6⟩ :=
      tryBody_ok_inv cfg step_us env (initRunState pwm0 status0) st htb
    simp only [initRunState, List.countP_nil, hstop, if_true] at f4 f5 f6
    simp only [runTest, htb]
    exact ⟨f1, f4⟩

/-- C10 witness: the partial-result guarantee instantiated on a concrete
stopped run with one collected point. -/
theorem C10_partial_result_witness :
    demoEnvStop.final_stop = true ∧
    (runTest demoCfgSmall 10 demoEnvStop {} {}).status.error_message = none ∧
    (runTest demoCfgSmall 10 demoEnvStop {} {}).points ≠ [] ∧
    ((runTest demoCfgSmall 10 demoEnvStop {} {}).result = some
      { config := demoCfgSmall,
        test_points := (runTest demoCfgSmall 10 demoEnvStop {} {}).points,
        deadband := some (analyze_deadband (runTest demoCfgSmall 10 demoEnvStop {} {}).points
          demoCfgSmall.neutral_pwm_us (mkRat 1 100) 5),
        start_time := demoEnvStop.start_time, end_time := some demoEnvStop.end_time,
        notes := "", test_id := none } ∧
     (runTest demoCfgSmall 10 demoEnvStop {} {}).events.countP isCompleteEvent = 0) :=
  ⟨rfl, by decide, by decide,
   C10_partial_result demoCfgSmall 10 demoEnvStop {} {}
     (runTest demoCfgSmall 10 demoEnvStop {} {}) rfl rfl (by decide) (by decide)⟩

/-- C1: in an uninterrupted, failure-free run with `min < neutral < max`
and `step > 0`, the sweep emits exactly `floor((max − min) / step) + 1`
points; their setpoints are `min + i·step`, start at `min`, increase by
exactly `step` from one point to the next, and never exceed `max`; and the
emitted `point` events carry exactly the collected points. -/
theorem C1_sweep_points (cfg : ThrusterConfig) (step_us : Int) (env : Env)
    (pwm0 : PWMState) (status0 : TestStatus) (M : Int → Measurement) (o : RunState)
    (ho : o = runTest cfg step_us env pwm0 status0)
    (hmin : cfg.min_pwm_us < cfg.neutral_pwm_us)
    (hmax : cfg.neutral_pwm_us < cfg.max_pwm_us)
    (hstep : 0 < step_us)
    (ha : env.arm_outcome = .ok ())
    (ht : env.tare_outcome = .ok ())
    (hrs : env.ramp_start_outcome = .ok ())
    (hrn : env.ramp_neutral_outcome = .ok ())
    (hd : env.disarm_outcome = .ok ())
    (hstop : ∀ k, env.observe_stop k = false)
    (hM : ∀ s, env.measure_outcome s = .ok (M s)) :
    o.points.length = ((cfg.max_pwm_us - cfg.min_pwm_us).fdiv step_us).toNat + 1 ∧
    o.points.map (fun p => p.pwm_us) =
      (List.range (((cfg.max_pwm_us - cfg.min_pwm_us).fdiv step_us).toNat + 1)).map
        (fun i : Nat => cfg.min_pwm_us + (i : Int) * step_us) ∧
    (o.points.map (fun p => p.pwm_us)).head? = some cfg.min_pwm_us ∧
    (∀ i : Nat, i + 1 < o.points.length →
      (o.points.map (fun p => p.pwm_us)).getD (i + 1) 0 =
        (o.points.map (fun p => p.pwm_us)).getD i 0 + step_us) ∧
    (∀ p ∈ o.points, p.pwm_us ≤ cfg.max_pwm_us) ∧
    o.events.filterMap eventPoint = o.points := by
  subst ho
  obtain ⟨stq, hrun, hp, he⟩ := runLoop_total cfg step_us env (total_steps_of cfg step_us) M
    hstop hM (loopFuel cfg) cfg.min_pwm_us 0
    (rampStartState cfg (armState cfg (initRunState pwm0 status0)))
  have htb : tryBody cfg step_us env (initRunState pwm0 status0) = finishPhase cfg env stq := by
    simp only [tryBody, ha, ht, hrs, hrun]
  cases hfin : finishPhase cfg env stq with
  | error es =>
    exfalso
    simp only [finishPhase, hrn, hd] at hfin
    cases hfs : env.final_stop <;> simp [hfs] at hfin
  | ok stf =>
    obtain ⟨f1, f2, f3, f4, f5, f6⟩ := finishPhase_ok cfg env stq stf hfin
    have hr : runTest cfg step_us env pwm0 status0 =
        { stf with status := { stf.status with is_running := false, is_paused := false } } := by
      simp only [runTest, htb, hfin]
    have hsw := sweepPoints_eq cfg.max_pwm_us step_us hstep (loopFuel cfg) cfg.min_pwm_us
      (by omega) le_rfl
    simp only [rampStartState, armState, initRunState] at hp he
    rw [hsw] at hp he
    have hpts : stf.points =
        ((List.range (((cfg.max_pwm_us - cfg.min_pwm_us).fdiv step_us).toNat + 1)).map
          (fun i : Nat => cfg.min_pwm_us + (i : Int) * step_us)).map
            (fun s => mkLoopPoint s (M s)) := by
      rw [f1, hp]
      simp
    have hmap : stf.points.map (fun p => p.pwm_us) =
        (List.range (((cfg.max_pwm_us - cfg.min_pwm_us).fdiv step_us).toNat + 1)).map
          (fun i : Nat => cfg.min_pwm_us + (i : Int) * step_us) := by
      rw [hpts, List.map_map, List.map_map]
      apply List.map_congr_left
      intro i _
      simp [mkLoopPoint]
    have hfd0 : 0 ≤ (cfg.max_pwm_us - cfg.min_pwm_us).fdiv step_us := by
      rw [Int.fdiv_eq_ediv _ (le_of_lt hstep)]
      exact Int.ediv_nonneg (by omega) (by omega)
    have hfdle : ((cfg.max_pwm_us - cfg.min_pwm_us).fdiv step_us) * step_us ≤
        cfg.max_pwm_us - cfg.min_pwm_us := by
      have := (rdown_facts (cfg.max_pwm_us - cfg.min_pwm_us) step_us hstep).2.1
      simpa [round_to_resolution] using this
    have hlen : stf.points.length =
        ((cfg.max_pwm_us - cfg.min_pwm_us).fdiv step_us).toNat + 1 := by
      rw [hpts]
      simp
    rw [hr]
    refine ⟨hlen, hmap, ?_, ?_, ?_, ?_⟩
    · show (stf.points.map (fun p => p.pwm_us)).head? = some cfg.min_pwm_us
      rw [hmap, List.range_succ_eq_map]
      simp
    · intro i hi
      have hi2 : i + 1 < stf.points.length := hi
      show (stf.points.map (fun p => p.pwm_us)).getD (i + 1) 0 =
        (stf.points.map (fun p => p.pwm_us)).getD i 0 + step_us
      rw [hmap]
      rw [List.getD_eq_getElem?_getD, List.getD_eq_getElem?_getD,
        List.getElem?_map, List.getElem?_map]
      have hiN : i + 1 < ((cfg.max_pwm_us - cfg.min_pwm_us).fdiv step_us).toNat + 1 := by
        rw [hlen] at hi2
        exact hi2
      rw [List.getElem?_range hiN, List.getElem?_range (by omega)]
      simp only [Option.map_some', Option.getD_some]
      push_cast
      ring
    · intro p hpmem
      have hpmem2 : p ∈ stf.points := hpmem
      rw [hpts] at hpmem2
      rw [List.map_map, List.mem_map] at hpmem2
      obtain ⟨i, hiR, hpe⟩ := hpmem2
      rw [List.mem_range] at hiR
      have hpw : p.pwm_us = cfg.min_pwm_us + (i : Int) * step_us := by
        rw [← hpe]
        simp [mkLoopPoint]
      rw [hpw]
      have hile : (i : Int) ≤ (cfg.max_pwm_us - cfg.min_pwm_us).fdiv step_us := by
        have : i ≤ ((cfg.max_pwm_us - cfg.min_pwm_us).fdiv step_us).toNat := by omega
        omega
      have := mul_le_mul_of_nonneg_right hile (le_of_lt hstep)
      omega
    · show stf.events.filterMap eventPoint = stf.points
      rw [f6, f1, List.filterMap_append, he, hp]
      cases env.final_stop <;> simp [eventPoint]

/-- C1 witness: concrete scenario A — `min = 1100`, `max = 1900`,
`step = 25` yields 33 points at setpoints `1100, 1125, …, 1900`. -/
theorem C1_sweep_points_witness :
    demoCfgA.min_pwm_us < demoCfgA.neutral_pwm_us ∧
    demoCfgA.neutral_pwm_us < demoCfgA.max_pwm_us ∧
    (0 : Int) < 25 ∧
    (runTest demoCfgA 25 demoEnvOk {} {}).points.length = 33 ∧
    (runTest demoCfgA 25 demoEnvOk {} {}).points.map (fun p => p.pwm_us) =
      [1100, 1125, 1150, 1175, 1200, 1225, 1250, 1275, 1300, 1325, 1350, 1375, 1400, 1425, 1450, 1475, 1500, 1525, 1550, 1575, 1600, 1625, 1650, 1675, 1700, 1725, 1750, 1775, 1800, 1825, 1850, 1875, 1900] ∧
    (runTest demoCfgA 25 demoEnvOk {} {}).events.filterMap eventPoint =
      (runTest demoCfgA 25 demoEnvOk {} {}).points := by
  have h := C1_sweep_points demoCfgA 25 demoEnvOk {} {} (fun _ => demoMeas)
    (runTest demoCfgA 25 demoEnvOk {} {}) rfl (by decide) (by decide) (by decide)
    rfl rfl rfl rfl rfl (fun k => rfl) (fun s => rfl)
  obtain ⟨h1, h2, h3, h4, h5, h6⟩ := h
  refine ⟨by decide, by decide, by decide, ?_, ?_, h6⟩
  · rw [h1]
    decide
  · rw [h2]
    decide

end ThrusterTester
